import Mathlib

/-!
Shallow embedding of `src/blindbid/proof.rs` from the dusk-blindbidproof
repository: the blind-bid proving orchestration (`Proof::prove`), the
witness-bundle decoder (`Proof::try_from_reader_variables`) and the proof
serializer (`TryInto<Vec<u8>> for Proof`).

External collaborators (the bulletproofs `Prover`, the relation gadget
`proof_gadget`, the `dusk_tlv` TLV reader/writer, `bincode` scalar
serialization and the curve25519 scalar/group arithmetic) are not part of
the source under scrutiny; they are modelled from the specification's
interface descriptions, as noted on each definition.
-/

namespace BlindBid

/-- Order of the Ristretto/curve25519 scalar field (the group of `Scalar`). -/
def lVal : Nat := 2 ^ 252 + 27742317777372353535851937790883648493

instance : NeZero lVal := ⟨by decide⟩

/-- Modelled from the spec: a `Scalar` is an element of the proving system's
prime-order scalar field. -/
abbrev Scalar := ZMod lVal

/-- Modelled from the spec: a compressed group element is a canonically
encoded point, fixed-size (32 bytes). -/
abbrev CompressedRistretto := { l : List Nat // l.length = 32 }

/-- Models `CompressedRistretto::to_bytes` (the 32-byte canonical encoding). -/
def CompressedRistretto.toBytes (c : CompressedRistretto) : List Nat := c.val

/-- Modelled from the spec: the fragment of bulletproofs' `LinearCombination`
actually used by the source: the injections from a circuit variable
(`Variable::into`) and from a scalar (`Scalar::into`). -/
inductive LC (Var : Type) where
  | ofVar : Var → LC Var
  | ofScalar : Scalar → LC Var
deriving DecidableEq

/-- The arguments handed to the external relation gadget, named after the
spec's `build_relation(circuit, d_var, k_var, yinv_var, q, z_img, seed,
public_constants, toggle_vars, list_constants)` signature. -/
structure GadgetArgs (Var : Type) where
  dVar : LC Var
  kVar : LC Var
  yinvVar : LC Var
  q : LC Var
  zImg : LC Var
  seed : LC Var
  publicConstants : List Scalar
  toggleVars : List Var
  listConstants : List (LC Var)
deriving DecidableEq

/-- The error type of the crate (`Error`), restricted to the variants the
embedded code distinguishes: unexpected end of input, a record that fails
to decode, and a failure of the external prover engine. -/
inductive Error where
  | unexpectedEof
  | decode
  | r1cs
deriving DecidableEq

/-- Modelled from the spec: the fixed public constant list `CONSTANTS`
(defined in `src/blindbid/mod.rs`, which is not part of the sources under
scrutiny; no claim depends on its values, only on it being passed through). -/
def CONSTANTS : List Scalar := []

/-- Modelled from the spec: the external prover engine interface —
`commit(value, blinding) -> (commitment, opening_var)`, the opaque relation
gadget as a state transformer on the constraint system, and
`prove(parameters) -> proof_bytes | error`.  `σ` is the (opaque) prover
state created by `generate_cs_transcript` + `Prover::new`. -/
structure ProverEngine (σ Var : Type) where
  init : σ
  commit : σ → Scalar → Scalar → (CompressedRistretto × Var) × σ
  gadget : σ → GadgetArgs Var → σ
  finalize : σ → Except Error (List Nat)

/-- The `Proof` struct: opaque proof bytes (`R1CSProof`, kept as its byte
serialization since it is opaque to this layer), the four witness
commitments, and the toggle commitments. -/
structure Proof where
  proof : List Nat
  commitments : List CompressedRistretto
  t_c : List CompressedRistretto
deriving DecidableEq

/-- The committed toggle-indicator scalars: position `x` carries
`Scalar::from((x == toggle) as u8)`, from lines 60–67 of the source. -/
def toggleScalars (n toggle : Nat) : List Scalar :=
  (List.range n).map (fun x => if x = toggle then 1 else 0)

/-- Sequential commitment of a list of scalars, each with the next blinding
factor from the randomness stream `rng` (models the
`(0..pub_list.len()).map(|x| prover.commit(..)).unzip()` pattern). -/
def commitSeq (E : ProverEngine σ Var) (rng : Nat → Scalar) :
    σ → Nat → List Scalar → List (CompressedRistretto × Var) × σ
  | s, _, [] => ([], s)
  | s, i, v :: vs =>
    let c := E.commit s v (rng i)
    let rest := commitSeq E rng c.2 (i + 1) vs
    (c.1 :: rest.1, rest.2)

/-- Steps 1–3 of `Proof::prove` (source lines 47–84): commit the high-level
witnesses `[d, k, y, y_inv]` (unfolded from the array `map`/`unzip`), build
the toggle commitments, and invoke the relation gadget with
`vars[0]`, `vars[1]`, `vars[3]`, `q`, `z_img`, `seed`, `&CONSTANTS`, `t_v`
and the public list as linear combinations.  Returns the final prover
state together with `commitments` and `t_c`. -/
def proveSetup (E : ProverEngine σ Var) (rng : Nat → Scalar)
    (d k y y_inv q z_img seed : Scalar) (pub_list : List Scalar)
    (toggle : Nat) : σ × List CompressedRistretto × List CompressedRistretto :=
  let c0 := E.commit E.init d (rng 0)
  let c1 := E.commit c0.2 k (rng 1)
  let c2 := E.commit c1.2 y (rng 2)
  let c3 := E.commit c2.2 y_inv (rng 3)
  let commitments := [c0.1.1, c1.1.1, c2.1.1, c3.1.1]
  let t := commitSeq E rng c3.2 4 (toggleScalars pub_list.length toggle)
  let t_c := t.1.map Prod.fst
  let t_v := t.1.map Prod.snd
  let l_v := pub_list.map LC.ofScalar
  let s := E.gadget t.2
    { dVar := LC.ofVar c0.1.2
      kVar := LC.ofVar c1.1.2
      yinvVar := LC.ofVar c3.1.2
      q := LC.ofScalar q
      zImg := LC.ofScalar z_img
      seed := LC.ofScalar seed
      publicConstants := CONSTANTS
      toggleVars := t_v
      listConstants := l_v }
  (s, commitments, t_c)

/-- `Proof::prove` (source lines 36–90): run the setup, then step 4 hands
the finished constraint system to the external prover engine; its error is
propagated, its proof bytes are wrapped with the commitments into a
`Proof`. -/
def Proof.prove (E : ProverEngine σ Var) (rng : Nat → Scalar)
    (d k y y_inv q z_img seed : Scalar) (pub_list : List Scalar)
    (toggle : Nat) : Except Error Proof :=
  let r := proveSetup E rng d k y y_inv q z_img seed pub_list toggle
  (E.finalize r.1).map (fun pb => Proof.mk pb r.2.1 r.2.2)

/-! ### A concrete, instrumented prover engine

The source hands commitments and gadget arguments to opaque external
crates; to observe which values the orchestration passes to them, we
instantiate the engine with one that records every operation.  Circuit
variables are numbered in commitment order (`Variable` indices). -/

/-- An injective concrete commitment: a 32-byte record carrying the
committed value and the blinding factor (positions 0 and 1). -/
def mkCR (v r : Scalar) : CompressedRistretto :=
  ⟨[v.val, r.val] ++ List.replicate 30 0, by simp⟩

/-- The state of the instrumented engine: the next variable index, the
`(value, blinding)` pairs committed so far in order, and the recorded
relation-gadget invocations. -/
structure TraceState where
  ctr : Nat
  commits : List (Scalar × Scalar)
  gadgetCalls : List (GadgetArgs Nat)
deriving DecidableEq

/-- The instrumented engine: `commit` returns `mkCR` and the running
variable index; `finalize` always succeeds, returning bytes that are an
injective function of the committed `(value, blinding)` sequence
(modelling that the proof bytes depend on the whole transcript). -/
def traceEngine : ProverEngine TraceState Nat where
  init := ⟨0, [], []⟩
  commit := fun s v r =>
    ((mkCR v r, s.ctr), ⟨s.ctr + 1, s.commits ++ [(v, r)], s.gadgetCalls⟩)
  gadget := fun s a => ⟨s.ctr, s.commits, s.gadgetCalls ++ [a]⟩
  finalize := fun s => .ok ((s.commits.map (fun p => [p.1.val, p.2.val])).flatten)

/-- A gadget invocation mentions the circuit variable `v`. -/
def GadgetArgs.usesVar (a : GadgetArgs Nat) (v : Nat) : Prop :=
  LC.ofVar v ∈ [a.dVar, a.kVar, a.yinvVar, a.q, a.zImg, a.seed] ∨
    v ∈ a.toggleVars ∨ LC.ofVar v ∈ a.listConstants

instance (a : GadgetArgs Nat) (v : Nat) : Decidable (a.usesVar v) := by
  unfold GadgetArgs.usesVar; infer_instance

/-! ### TLV wire format

`dusk_tlv`'s `TlvWriter`/`TlvReader` are external; the byte layout is
modelled from the spec (§4.2, §6): every record is a fixed-width length
prefix followed by the payload, and a list record's payload is a
fixed-width element count followed by the element records
(`[len|count|item_1..n]`). -/

/-- Modelled from the spec: a fixed-width (`w`-byte) little-endian
encoding of `n`, used for all length/count prefixes. -/
def leBytes : Nat → Nat → List Nat
  | 0, _ => []
  | w + 1, n => n % 256 :: leBytes w (n / 256)

/-- Value of a little-endian byte list (inverse of `leBytes`). -/
def leVal : List Nat → Nat
  | [] => 0
  | b :: rest => b + 256 * leVal rest

/-- Modelled from the spec: one length-prefixed record. -/
def writeRecord (payload : List Nat) : List Nat :=
  leBytes 8 payload.length ++ payload

/-- Payload of a list record: element count, then the element records. -/
def listPayload (items : List (List Nat)) : List Nat :=
  leBytes 8 items.length ++ (items.map writeRecord).flatten

/-- Modelled from the spec: a length-prefixed list record
(`TlvWriter::write_list`). -/
def writeList (items : List (List Nat)) : List Nat :=
  writeRecord (listPayload items)

/-- The `TlvWriter` over an in-memory buffer (`TlvWriter::new(vec![])`). -/
structure TlvWriter where
  buf : List Nat

def TlvWriter.new : TlvWriter := ⟨[]⟩

/-- `TlvWriter::write`: append one length-prefixed record. -/
def TlvWriter.write (w : TlvWriter) (bytes : List Nat) : TlvWriter :=
  ⟨w.buf ++ writeRecord bytes⟩

/-- `TlvWriter::write_list`: append one list record. -/
def TlvWriter.writeElems (w : TlvWriter) (items : List (List Nat)) : TlvWriter :=
  ⟨w.buf ++ writeList items⟩

def TlvWriter.intoInner (w : TlvWriter) : List Nat := w.buf

/-- `TryInto<Vec<u8>> for Proof` (source lines 120–145): write the raw
proof bytes, then the commitment encodings as a list, then the toggle
commitment encodings as a list. -/
def Proof.tryInto (p : Proof) : Except Error (List Nat) :=
  let buf := TlvWriter.new
  let buf := buf.write p.proof
  let buf := buf.writeElems (p.commitments.map CompressedRistretto.toBytes)
  let buf := buf.writeElems (p.t_c.map CompressedRistretto.toBytes)
  .ok buf.intoInner

/-- Modelled from the spec: the generic TLV record reader — parse one
length prefix, then slice off that many payload bytes; `none` when the
stream is truncated. -/
def readRecord (s : List Nat) : Option (List Nat × List Nat) :=
  if 8 ≤ s.length then
    let L := leVal (s.take 8)
    let rest := s.drop 8
    if L ≤ rest.length then some (rest.take L, rest.drop L) else none
  else none

/-- Read `n` consecutive records. -/
def readItems : Nat → List Nat → Option (List (List Nat) × List Nat)
  | 0, s => some ([], s)
  | n + 1, s => do
    let (b, rest) ← readRecord s
    let (bs, rest2) ← readItems n rest
    some (b :: bs, rest2)

/-- Modelled from the spec: `TlvReader::read_list` — read one list record
and split its payload into `count` element payloads. -/
def readListRecord (s : List Nat) : Option (List (List Nat) × List Nat) := do
  let (payload, rest) ← readRecord s
  let (items, _) ← readItems (leVal (payload.take 8)) (payload.drop 8)
  some (items, rest)

/-- Reading a serialized `Proof` back as the three generic TLV fields
(proof bytes, commitment encodings, toggle-commitment encodings). -/
def readProofTriple (s : List Nat) :
    Option (List Nat × List (List Nat) × List (List Nat)) := do
  let (pb, s1) ← readRecord s
  let (cs, s2) ← readListRecord s1
  let (ts, _) ← readListRecord s2
  some (pb, cs, ts)

/-! ### Witness-bundle decoding (`try_from_reader_variables`) -/

/-- Modelled from the spec: `bincode`'s 32-byte serialization of a
canonical field scalar. -/
def scalarToBytes (s : Scalar) : List Nat := leBytes 32 s.val

/-- Modelled from the spec: `bincode::deserialize::<Scalar>` — exactly 32
bytes encoding a canonical (below the field order) value; anything else is
a decoding error. -/
def scalarFromBytes (b : List Nat) : Option Scalar :=
  if b.length = 32 ∧ leVal b < lVal then some ((leVal b : Nat) : Scalar)
  else none

/-- One step of the scalar iterator at lines 93–105: `None` from the TLV
iterator becomes `Error::UnexpectedEof`, a malformed scalar record becomes
a decoding error. -/
def nextScalar (s : List Nat) : Except Error (Scalar × List Nat) :=
  match readRecord s with
  | none => .error .unexpectedEof
  | some (b, rest) =>
    match scalarFromBytes b with
    | none => .error .decode
    | some v => .ok (v, rest)

/-- Decode every element of the public-list record as a scalar
(source lines 109–112). -/
def decodeScalarList : List (List Nat) → Except Error (List Scalar)
  | [] => .ok []
  | b :: rest =>
    match scalarFromBytes b with
    | none => .error .decode
    | some v => (decodeScalarList rest).map (fun vs => v :: vs)

/-- Modelled from the spec: `TlvReader::read_usize` — one record whose
payload is the 8-byte encoding of an unsigned integer; truncation is an
unexpected end of input, a wrong-sized payload a decoding error. -/
def readUsizeRecord (s : List Nat) : Except Error (Nat × List Nat) :=
  match readRecord s with
  | none => .error .unexpectedEof
  | some (b, rest) =>
    if b.length = 8 then .ok (leVal b, rest) else .error .decode

/-- `Proof::try_from_reader_variables` (source lines 92–117): read the
seven scalar records `d, k, y, y_inv, q, z_img, seed`, then the public
list, then the toggle index, and re-run `Proof::prove` on them. -/
def Proof.tryFromReaderVariables (E : ProverEngine σ Var) (rng : Nat → Scalar)
    (s : List Nat) : Except Error Proof := do
  let (d, s) ← nextScalar s
  let (k, s) ← nextScalar s
  let (y, s) ← nextScalar s
  let (y_inv, s) ← nextScalar s
  let (q, s) ← nextScalar s
  let (z_img, s) ← nextScalar s
  let (seed, s) ← nextScalar s
  let (items, s) ←
    match readListRecord s with
    | none => Except.error Error.unexpectedEof
    | some r => Except.ok r
  let pub_list ← decodeScalarList items
  let (toggle, _) ← readUsizeRecord s
  Proof.prove E rng d k y y_inv q z_img seed pub_list toggle

/-- The nine records of the witness wire format (§4.3/§6): seven scalar
records, the public-list record, and the toggle-integer record. -/
def encodeWitnessRecords (d k y y_inv q z_img seed : Scalar)
    (pub_list : List Scalar) (toggle : Nat) : List (List Nat) :=
  [writeRecord (scalarToBytes d), writeRecord (scalarToBytes k),
   writeRecord (scalarToBytes y), writeRecord (scalarToBytes y_inv),
   writeRecord (scalarToBytes q), writeRecord (scalarToBytes z_img),
   writeRecord (scalarToBytes seed),
   writeList (pub_list.map scalarToBytes),
   writeRecord (leBytes 8 toggle)]

/-! ### Lemmas about the TLV byte layer -/

theorem length_leBytes (w n : Nat) : (leBytes w n).length = w := by
  induction w generalizing n with
  | zero => rfl
  | succ w ih => simp [leBytes, ih]

theorem leVal_leBytes (w n : Nat) (h : n < 256 ^ w) :
    leVal (leBytes w n) = n := by
  induction w generalizing n with
  | zero =>
    simp only [Nat.pow_zero, Nat.lt_one_iff] at h
    simp [leBytes, leVal, h]
  | succ w ih =>
    have h2 : n / 256 < 256 ^ w := by
      rw [Nat.div_lt_iff_lt_mul (by norm_num)]
      calc n < 256 ^ (w + 1) := h
        _ = 256 ^ w * 256 := by ring
    simp only [leBytes, leVal, ih _ h2]
    omega

theorem pow_256_8 : (256 : Nat) ^ 8 = 2 ^ 64 := by norm_num

theorem readRecord_writeRecord (p rest : List Nat) (h : p.length < 2 ^ 64) :
    readRecord (writeRecord p ++ rest) = some (p, rest) := by
  have hl : (leBytes 8 p.length).length = 8 := length_leBytes 8 _
  have h256 : p.length < 256 ^ 8 := by rw [pow_256_8]; exact h
  unfold readRecord writeRecord
  rw [List.append_assoc, List.take_left' hl, List.drop_left' hl,
    leVal_leBytes _ _ h256]
  rw [if_pos (by simp [hl]), if_pos (by simp)]
  rw [List.take_left, List.drop_left]

theorem readRecord_nil : readRecord [] = none := by
  simp [readRecord]

theorem readItems_flatten (items : List (List Nat)) (rest : List Nat)
    (h : ∀ b ∈ items, b.length < 2 ^ 64) :
    readItems items.length ((items.map writeRecord).flatten ++ rest) =
      some (items, rest) := by
  induction items generalizing rest with
  | nil => simp [readItems]
  | cons b bs ih =>
    simp only [List.map_cons, List.flatten_cons, List.length_cons,
      List.append_assoc]
    rw [readItems]
    rw [readRecord_writeRecord b _ (h b (by simp))]
    simp only [Option.bind_eq_bind, Option.some_bind]
    rw [ih _ (fun x hx => h x (by simp [hx]))]
    rfl

theorem readListRecord_writeList (items : List (List Nat)) (rest : List Nat)
    (hitems : ∀ b ∈ items, b.length < 2 ^ 64)
    (hpay : (listPayload items).length < 2 ^ 64)
    (hcount : items.length < 2 ^ 64) :
    readListRecord (writeList items ++ rest) = some (items, rest) := by
  have hl : (leBytes 8 items.length).length = 8 := length_leBytes 8 _
  have hc256 : items.length < 256 ^ 8 := by rw [pow_256_8]; exact hcount
  unfold readListRecord writeList
  rw [readRecord_writeRecord _ _ hpay]
  simp only [Option.bind_eq_bind, Option.some_bind, listPayload,
    List.take_left' hl, List.drop_left' hl, leVal_leBytes _ _ hc256]
  have h0 := readItems_flatten items [] hitems
  rw [List.append_nil] at h0
  rw [h0]
  rfl

theorem listPayload_length_of_32 (items : List (List Nat))
    (h : ∀ b ∈ items, b.length = 32) :
    (listPayload items).length = 8 + 40 * items.length := by
  unfold listPayload
  simp only [List.length_append, length_leBytes]
  have : ((items.map writeRecord).flatten).length = 40 * items.length := by
    induction items with
    | nil => simp
    | cons b bs ih =>
      simp only [List.map_cons, List.flatten_cons, List.length_append,
        List.length_cons]
      rw [ih (fun x hx => h x (by simp [hx]))]
      have hb : b.length = 32 := h b (by simp)
      simp [writeRecord, length_leBytes, hb]
      ring
  rw [this]

/-! ### Lemmas about the proving orchestration -/

theorem commitSeq_fst_length (E : ProverEngine σ Var) (rng : Nat → Scalar) :
    ∀ (vs : List Scalar) (s : σ) (i : Nat),
      (commitSeq E rng s i vs).1.length = vs.length := by
  intro vs
  induction vs with
  | nil => intro s i; rfl
  | cons v vs ih => intro s i; simp [commitSeq, ih]

set_option maxRecDepth 4000 in
theorem commitSeq_trace (rng : Nat → Scalar) (n : Nat) :
    ∀ (g : Nat → Scalar) (s : TraceState) (i : Nat),
      commitSeq traceEngine rng s i ((List.range n).map g) =
        ((List.range n).map (fun j => (mkCR (g j) (rng (i + j)), s.ctr + j)),
         ⟨s.ctr + n,
          s.commits ++ (List.range n).map (fun j => (g j, rng (i + j))),
          s.gadgetCalls⟩) := by
  induction n with
  | zero => intro g s i; simp [commitSeq]
  | succ n ih =>
    intro g s i
    rw [List.range_succ_eq_map]
    simp only [List.map_cons, List.map_map]
    rw [commitSeq]
    show ((mkCR (g 0) (rng i), s.ctr) :: _, _) = _
    have hc : (traceEngine.commit s (g 0) (rng i)).2 =
        ⟨s.ctr + 1, s.commits ++ [(g 0, rng i)], s.gadgetCalls⟩ := rfl
    rw [hc, ih (g ∘ Nat.succ)
      ⟨s.ctr + 1, s.commits ++ [(g 0, rng i)], s.gadgetCalls⟩ (i + 1)]
    dsimp only
    have m1 : List.map (fun j => (mkCR ((g ∘ Nat.succ) j) (rng (i + 1 + j)),
        s.ctr + 1 + j)) (List.range n) =
        List.map ((fun j => (mkCR (g j) (rng (i + j)), s.ctr + j)) ∘ Nat.succ)
          (List.range n) := by
      refine List.map_congr_left fun j hj => ?_
      simp only [Function.comp_def, Nat.succ_eq_add_one]
      have h1 : i + 1 + j = i + (j + 1) := by omega
      have h2 : s.ctr + 1 + j = s.ctr + (j + 1) := by omega
      rw [h1, h2]
    have m2 : List.map (fun j => ((g ∘ Nat.succ) j, rng (i + 1 + j)))
        (List.range n) =
        List.map ((fun j => (g j, rng (i + j))) ∘ Nat.succ) (List.range n) := by
      refine List.map_congr_left fun j hj => ?_
      simp only [Function.comp_def, Nat.succ_eq_add_one]
      have h1 : i + 1 + j = i + (j + 1) := by omega
      rw [h1]
    rw [m1, m2]
    have h3 : s.ctr + 1 + n = s.ctr + (n + 1) := by omega
    rw [h3, List.append_assoc, List.singleton_append]
    simp only [Nat.add_zero]

/-- The single relation-gadget invocation recorded on a run of
`proveSetup`: opening variables `0` (d), `1` (k) and `3` (y_inv), the
public circuit inputs, the constant list, the toggle variables `4..4+N`
and the public list as constants. -/
def expectedGadgetArgs (q z_img seed : Scalar) (pub_list : List Scalar) :
    GadgetArgs Nat where
  dVar := LC.ofVar 0
  kVar := LC.ofVar 1
  yinvVar := LC.ofVar 3
  q := LC.ofScalar q
  zImg := LC.ofScalar z_img
  seed := LC.ofScalar seed
  publicConstants := CONSTANTS
  toggleVars := (List.range pub_list.length).map (fun j => 4 + j)
  listConstants := pub_list.map LC.ofScalar

theorem traceEngine_init : traceEngine.init = ⟨0, [], []⟩ := rfl

theorem traceEngine_commit (s : TraceState) (v r : Scalar) :
    traceEngine.commit s v r =
      ((mkCR v r, s.ctr),
       ⟨s.ctr + 1, s.commits ++ [(v, r)], s.gadgetCalls⟩) := rfl

theorem traceEngine_gadget (s : TraceState) (a : GadgetArgs Nat) :
    traceEngine.gadget s a = ⟨s.ctr, s.commits, s.gadgetCalls ++ [a]⟩ := rfl

theorem traceEngine_finalize (s : TraceState) :
    traceEngine.finalize s =
      .ok ((s.commits.map (fun p => [p.1.val, p.2.val])).flatten) := rfl

theorem proveSetup_trace (rng : Nat → Scalar)
    (d k y y_inv q z_img seed : Scalar) (pub_list : List Scalar)
    (toggle : Nat) :
    proveSetup traceEngine rng d k y y_inv q z_img seed pub_list toggle =
      (⟨4 + pub_list.length,
        [(d, rng 0), (k, rng 1), (y, rng 2), (y_inv, rng 3)] ++
          (List.range pub_list.length).map
            (fun j => ((if j = toggle then (1 : Scalar) else 0), rng (4 + j))),
        [expectedGadgetArgs q z_img seed pub_list]⟩,
       [mkCR d (rng 0), mkCR k (rng 1), mkCR y (rng 2), mkCR y_inv (rng 3)],
       (List.range pub_list.length).map
         (fun j => mkCR (if j = toggle then (1 : Scalar) else 0)
           (rng (4 + j)))) := by
  unfold proveSetup toggleScalars
  simp only [traceEngine_init, traceEngine_commit, traceEngine_gadget]
  rw [commitSeq_trace]
  simp [expectedGadgetArgs, List.map_map]

/-- The `(value, blinding)` pairs a run of `prove` commits, in order:
the four witnesses, then the toggle indicators. -/
def traceCommitsOf (rng : Nat → Scalar) (d k y y_inv : Scalar)
    (pub_list : List Scalar) (toggle : Nat) : List (Scalar × Scalar) :=
  [(d, rng 0), (k, rng 1), (y, rng 2), (y_inv, rng 3)] ++
    (List.range pub_list.length).map
      (fun j => ((if j = toggle then (1 : Scalar) else 0), rng (4 + j)))

/-- The proof bytes the trace engine produces for a commit sequence. -/
def traceProofBytes (cs : List (Scalar × Scalar)) : List Nat :=
  (cs.map (fun p => [p.1.val, p.2.val])).flatten

theorem prove_trace (rng : Nat → Scalar)
    (d k y y_inv q z_img seed : Scalar) (pub_list : List Scalar)
    (toggle : Nat) :
    Proof.prove traceEngine rng d k y y_inv q z_img seed pub_list toggle =
      .ok ⟨traceProofBytes (traceCommitsOf rng d k y y_inv pub_list toggle),
        [mkCR d (rng 0), mkCR k (rng 1), mkCR y (rng 2), mkCR y_inv (rng 3)],
        (List.range pub_list.length).map
          (fun j => mkCR (if j = toggle then (1 : Scalar) else 0)
            (rng (4 + j)))⟩ := by
  unfold Proof.prove
  rw [proveSetup_trace]
  dsimp only
  rw [traceEngine_finalize]
  rfl

/-! ### The claims -/

/-- C1: for every witness (seven scalars), every public list of length
`N ≥ 1` and every toggle in `[0, N)`, `prove` succeeds whenever the
external prover engine succeeds, returning the engine's proof bytes, a
commitments vector of exactly 4 elements and a toggle-commitments vector
of exactly `N` elements. -/
theorem C1_prove_sizes (E : ProverEngine σ Var) (rng : Nat → Scalar)
    (d k y y_inv q z_img seed : Scalar) (pub_list : List Scalar)
    (toggle : Nat) (pb : List Nat)
    (hN : 1 ≤ pub_list.length) (ht : toggle < pub_list.length)
    (hok : E.finalize
      (proveSetup E rng d k y y_inv q z_img seed pub_list toggle).1 =
        .ok pb) :
    Proof.prove E rng d k y y_inv q z_img seed pub_list toggle =
      .ok ⟨pb,
        (proveSetup E rng d k y y_inv q z_img seed pub_list toggle).2.1,
        (proveSetup E rng d k y y_inv q z_img seed pub_list toggle).2.2⟩ ∧
    (proveSetup E rng d k y y_inv q z_img seed pub_list toggle).2.1.length
      = 4 ∧
    (proveSetup E rng d k y y_inv q z_img seed pub_list toggle).2.2.length
      = pub_list.length := by
  refine ⟨?_, ?_, ?_⟩
  · unfold Proof.prove
    dsimp only
    rw [hok]
    rfl
  · simp [proveSetup]
  · simp [proveSetup, commitSeq_fst_length, toggleScalars]

theorem C1_prove_sizes_witness :
    Proof.prove traceEngine (fun _ => (0 : Scalar)) 0 0 0 0 0 0 0
        [(0 : Scalar)] 0 =
      .ok ⟨[0, 0, 0, 0, 0, 0, 0, 0, 1, 0],
        (proveSetup traceEngine (fun _ => (0 : Scalar)) 0 0 0 0 0 0 0
          [(0 : Scalar)] 0).2.1,
        (proveSetup traceEngine (fun _ => (0 : Scalar)) 0 0 0 0 0 0 0
          [(0 : Scalar)] 0).2.2⟩ ∧
    (proveSetup traceEngine (fun _ => (0 : Scalar)) 0 0 0 0 0 0 0
      [(0 : Scalar)] 0).2.1.length = 4 ∧
    (proveSetup traceEngine (fun _ => (0 : Scalar)) 0 0 0 0 0 0 0
      [(0 : Scalar)] 0).2.2.length = [(0 : Scalar)].length :=
  C1_prove_sizes traceEngine (fun _ => (0 : Scalar)) 0 0 0 0 0 0 0
    [(0 : Scalar)] 0 [0, 0, 0, 0, 0, 0, 0, 0, 1, 0]
    (by decide) (by decide) (by rfl)

/-- C10: `prove` accepts an empty public list: with `N = 0` it builds no
toggle commitments, and when the engine succeeds it returns a `Proof`
whose `t_c` is empty while `commitments` still has exactly 4 elements. -/
theorem C10_empty_list (E : ProverEngine σ Var) (rng : Nat → Scalar)
    (d k y y_inv q z_img seed : Scalar) (toggle : Nat) (pb : List Nat)
    (hok : E.finalize
      (proveSetup E rng d k y y_inv q z_img seed [] toggle).1 = .ok pb) :
    Proof.prove E rng d k y y_inv q z_img seed [] toggle =
      .ok ⟨pb,
        (proveSetup E rng d k y y_inv q z_img seed [] toggle).2.1, []⟩ ∧
    (proveSetup E rng d k y y_inv q z_img seed [] toggle).2.1.length
      = 4 := by
  have he : (proveSetup E rng d k y y_inv q z_img seed [] toggle).2.2
      = [] := by
    simp [proveSetup, toggleScalars, commitSeq]
  refine ⟨?_, by simp [proveSetup]⟩
  unfold Proof.prove
  dsimp only
  rw [hok]
  simp [he, Except.map]

theorem C10_empty_list_witness :
    Proof.prove traceEngine (fun _ => (0 : Scalar)) 0 0 0 0 0 0 0 [] 5 =
      .ok ⟨[0, 0, 0, 0, 0, 0, 0, 0],
        (proveSetup traceEngine (fun _ => (0 : Scalar)) 0 0 0 0 0 0 0
          [] 5).2.1, []⟩ ∧
    (proveSetup traceEngine (fun _ => (0 : Scalar)) 0 0 0 0 0 0 0
      [] 5).2.1.length = 4 :=
  C10_empty_list traceEngine (fun _ => (0 : Scalar)) 0 0 0 0 0 0 0 5
    [0, 0, 0, 0, 0, 0, 0, 0] (by rfl)

/-- C3: at each position `i` of the public list, `prove` commits to the
scalar `1` if `i = toggle` and `0` otherwise; when `toggle` is in range,
the indicator at position `toggle` is `1` and all other positions carry
`0`. -/
theorem C3_toggle_commitments (rng : Nat → Scalar)
    (d k y y_inv q z_img seed : Scalar) (pub_list : List Scalar)
    (toggle : Nat) (p : Proof)
    (hp : Proof.prove traceEngine rng d k y y_inv q z_img seed pub_list
      toggle = .ok p) :
    p.t_c = (List.range pub_list.length).map
        (fun j => mkCR (if j = toggle then (1 : Scalar) else 0)
          (rng (4 + j))) ∧
    (toggle < pub_list.length →
      (toggleScalars pub_list.length toggle).getD toggle 0 = 1 ∧
      ∀ j, j < pub_list.length → j ≠ toggle →
        (toggleScalars pub_list.length toggle).getD j 0 = 0) := by
  rw [prove_trace] at hp
  injection hp with h
  subst h
  refine ⟨rfl, fun hlt => ⟨?_, fun j hj hne => ?_⟩⟩
  · unfold toggleScalars
    rw [List.getD_eq_getElem?_getD, List.getElem?_map,
      List.getElem?_range hlt]
    simp
  · unfold toggleScalars
    rw [List.getD_eq_getElem?_getD, List.getElem?_map,
      List.getElem?_range hj]
    simp [hne]

theorem C3_toggle_commitments_witness :
    ((Proof.mk [0, 0, 0, 1, 0, 2, 1, 3, 0, 4, 1, 5]
        [mkCR 0 0, mkCR 0 1, mkCR 0 2, mkCR 1 3]
        [mkCR 0 4, mkCR 1 5]).t_c =
      (List.range [(5 : Scalar), 6].length).map
        (fun j => mkCR (if j = 1 then (1 : Scalar) else 0)
          ((fun i => (i : Scalar)) (4 + j))) ∧
    (1 < [(5 : Scalar), 6].length →
      (toggleScalars [(5 : Scalar), 6].length 1).getD 1 0 = 1 ∧
      ∀ j, j < [(5 : Scalar), 6].length → j ≠ 1 →
        (toggleScalars [(5 : Scalar), 6].length 1).getD j 0 = 0)) :=
  C3_toggle_commitments (fun i => (i : Scalar)) 0 0 0 1 0 0 0
    [(5 : Scalar), 6] 1
    (Proof.mk [0, 0, 0, 1, 0, 2, 1, 3, 0, 4, 1, 5]
      [mkCR 0 0, mkCR 0 1, mkCR 0 2, mkCR 1 3]
      [mkCR 0 4, mkCR 1 5]) (by rfl)

/-- C7: with an out-of-range toggle index, `prove` still runs the whole
commitment phase (it is total) and every one of the `N` toggle
commitments is a commitment to the scalar `0`; only the gadget/prover
stage could fail. -/
theorem C7_out_of_range_toggle (rng : Nat → Scalar)
    (d k y y_inv q z_img seed : Scalar) (pub_list : List Scalar)
    (toggle : Nat) (hge : pub_list.length ≤ toggle) :
    toggleScalars pub_list.length toggle =
      List.replicate pub_list.length 0 ∧
    ∀ p, Proof.prove traceEngine rng d k y y_inv q z_img seed pub_list
        toggle = .ok p →
      p.t_c = (List.range pub_list.length).map
        (fun j => mkCR 0 (rng (4 + j))) := by
  constructor
  · unfold toggleScalars
    have hc : ∀ j ∈ List.range pub_list.length,
        (if j = toggle then (1 : Scalar) else 0) = 0 := by
      intro j hj
      have hjN := List.mem_range.mp hj
      have : j ≠ toggle := by omega
      simp [this]
    rw [List.map_congr_left hc, List.map_const', List.length_range]
  · intro p hp
    rw [prove_trace] at hp
    injection hp with h
    subst h
    show (List.range pub_list.length).map _ = _
    refine List.map_congr_left fun j hj => ?_
    have hjN := List.mem_range.mp hj
    have : j ≠ toggle := by omega
    simp [this]

theorem C7_out_of_range_toggle_witness :
    (toggleScalars [(5 : Scalar), 6].length 2 =
      List.replicate [(5 : Scalar), 6].length 0 ∧
    ∀ p, Proof.prove traceEngine (fun i => (i : Scalar)) 0 0 0 1 0 0 0
        [(5 : Scalar), 6] 2 = .ok p →
      p.t_c = (List.range [(5 : Scalar), 6].length).map
        (fun j => mkCR 0 ((fun i => (i : Scalar)) (4 + j)))) :=
  C7_out_of_range_toggle (fun i => (i : Scalar)) 0 0 0 1 0 0 0
    [(5 : Scalar), 6] 2 (by decide)

/-- C2 (counterexample): the claim that the gadget receives all four
opening variables is false — on a concrete run (with distinct witness
scalars, so commitment number 2 is identifiably `y`'s), the single
recorded gadget invocation never mentions circuit variable `2`, the
opening variable of `y`. -/
theorem C2_counterexample :
    (proveSetup traceEngine (fun i => (i : Scalar)) 1 2 3 4 5 6 7
        [(8 : Scalar)] 0).1.commits.getD 2 (0, 0) = (3, 2) ∧
    (proveSetup traceEngine (fun i => (i : Scalar)) 1 2 3 4 5 6 7
        [(8 : Scalar)] 0).1.gadgetCalls.length = 1 ∧
    ∀ a ∈ (proveSetup traceEngine (fun i => (i : Scalar)) 1 2 3 4 5 6 7
        [(8 : Scalar)] 0).1.gadgetCalls, ¬ a.usesVar 2 := by
  decide

/-- C2 (amended): on every call, `prove` invokes the relation gadget
exactly once, with the opening variables of `d`, `k` and `y_inv`
(commitments 0, 1 and 3 — the opening variable of `y`, commitment 2, is
not passed), together with `q`, `z_img`, `seed` as scalar circuit inputs,
the constant list, the per-position toggle opening variables, and the
public list as constants. -/
theorem C2_gadget_args (rng : Nat → Scalar)
    (d k y y_inv q z_img seed : Scalar) (pub_list : List Scalar)
    (toggle : Nat) :
    (proveSetup traceEngine rng d k y y_inv q z_img seed pub_list
        toggle).1.gadgetCalls = [expectedGadgetArgs q z_img seed pub_list] ∧
    (proveSetup traceEngine rng d k y y_inv q z_img seed pub_list
        toggle).1.commits = traceCommitsOf rng d k y y_inv pub_list toggle
      := by
  rw [proveSetup_trace]
  exact ⟨rfl, rfl⟩

/-- C8: two runs of `prove` on identical witness, list and toggle, whose
sampled blinding randomness differs (as fresh independent sampling
yields), produce different commitment vectors and different proof bytes. -/
theorem C8_fresh_randomness (d k y y_inv q z_img seed : Scalar)
    (pub_list : List Scalar) (toggle : Nat) (r1 r2 : Nat → Scalar)
    (p1 p2 : Proof) (hr : r1 0 ≠ r2 0)
    (h1 : Proof.prove traceEngine r1 d k y y_inv q z_img seed pub_list
      toggle = .ok p1)
    (h2 : Proof.prove traceEngine r2 d k y y_inv q z_img seed pub_list
      toggle = .ok p2) :
    p1.commitments ≠ p2.commitments ∧ p1.proof ≠ p2.proof := by
  rw [prove_trace] at h1 h2
  injection h1 with e1
  injection h2 with e2
  subst e1
  subst e2
  have hv : (r1 0).val ≠ (r2 0).val :=
    fun hc => hr (ZMod.val_injective lVal hc)
  constructor
  · dsimp only
    intro hc
    simp only [List.cons.injEq, mkCR, Subtype.mk.injEq] at hc
    exact hv (by simpa using hc.1)
  · dsimp only [traceProofBytes, traceCommitsOf]
    intro hc
    simp only [List.map_append, List.map_cons, List.flatten_append,
      List.flatten_cons, List.cons_append, List.cons.injEq] at hc
    exact hv hc.2.1

theorem C8_fresh_randomness_witness :
    (Proof.mk (traceProofBytes (traceCommitsOf (fun _ => (0 : Scalar))
        0 0 0 0 [] 0)) [mkCR 0 0, mkCR 0 0, mkCR 0 0, mkCR 0 0]
        []).commitments ≠
      (Proof.mk (traceProofBytes (traceCommitsOf (fun _ => (1 : Scalar))
        0 0 0 0 [] 0)) [mkCR 0 1, mkCR 0 1, mkCR 0 1, mkCR 0 1]
        []).commitments ∧
    (Proof.mk (traceProofBytes (traceCommitsOf (fun _ => (0 : Scalar))
        0 0 0 0 [] 0)) [mkCR 0 0, mkCR 0 0, mkCR 0 0, mkCR 0 0]
        []).proof ≠
      (Proof.mk (traceProofBytes (traceCommitsOf (fun _ => (1 : Scalar))
        0 0 0 0 [] 0)) [mkCR 0 1, mkCR 0 1, mkCR 0 1, mkCR 0 1]
        []).proof :=
  C8_fresh_randomness 0 0 0 0 0 0 0 [] 0 (fun _ => (0 : Scalar))
    (fun _ => (1 : Scalar)) _ _ (by decide) (by rfl) (by rfl)

theorem writeList_commitments (cs : List CompressedRistretto) :
    writeList (cs.map CompressedRistretto.toBytes) =
      leBytes 8 (8 + 40 * cs.length) ++
        (leBytes 8 cs.length ++
          (cs.map (fun c => leBytes 8 32 ++ c.val)).flatten) := by
  have h32 : ∀ b ∈ cs.map CompressedRistretto.toBytes, b.length = 32 := by
    intro b hb
    obtain ⟨c, hc, rfl⟩ := List.mem_map.mp hb
    exact c.2
  unfold writeList writeRecord
  rw [listPayload_length_of_32 _ h32, List.length_map]
  unfold listPayload
  rw [List.length_map, List.map_map]
  have hm : cs.map (writeRecord ∘ CompressedRistretto.toBytes) =
      cs.map (fun c => leBytes 8 32 ++ c.val) :=
    List.map_congr_left fun c hc => by
      simp only [Function.comp_def, writeRecord, CompressedRistretto.toBytes]
      rw [c.2]
  rw [hm]

/-- C5: for every `Proof`, encoding produces exactly the concatenation of
three length-prefixed records — the raw proof bytes, the commitment list,
the toggle-commitment list, in that order — where each list record is an
element count followed by the element records, each group element is
exactly its 32 bytes, and nothing else (no padding, checksum or version
byte): the total is determined byte-by-byte by the three fields. -/
theorem C5_layout (p : Proof) :
    Proof.tryInto p =
      .ok (leBytes 8 p.proof.length ++ (p.proof ++
        (leBytes 8 (8 + 40 * p.commitments.length) ++
          (leBytes 8 p.commitments.length ++
            ((p.commitments.map (fun c => leBytes 8 32 ++ c.val)).flatten ++
          (leBytes 8 (8 + 40 * p.t_c.length) ++
            (leBytes 8 p.t_c.length ++
              (p.t_c.map (fun c => leBytes 8 32 ++ c.val)).flatten))))))) := by
  unfold Proof.tryInto TlvWriter.new TlvWriter.write TlvWriter.writeElems
    TlvWriter.intoInner
  dsimp only
  rw [writeList_commitments, writeList_commitments]
  unfold writeRecord
  simp [List.append_assoc]

/-- C9: serialization is deterministic in the `Proof` value — the encoded
byte stream depends only on the three fields. -/
theorem C9_deterministic (p q : Proof) (h1 : p.proof = q.proof)
    (h2 : p.commitments = q.commitments) (h3 : p.t_c = q.t_c) :
    Proof.tryInto p = Proof.tryInto q := by
  cases p
  cases q
  cases h1
  cases h2
  cases h3
  rfl

theorem C9_deterministic_witness :
    Proof.tryInto (Proof.mk [1, 2] [mkCR 1 0] [mkCR 0 1]) =
      Proof.tryInto (Proof.mk ([1] ++ [2]) ([mkCR 1 0] ++ [])
        ([] ++ [mkCR 0 1])) :=
  C9_deterministic (Proof.mk [1, 2] [mkCR 1 0] [mkCR 0 1])
    (Proof.mk ([1] ++ [2]) ([mkCR 1 0] ++ []) ([] ++ [mkCR 0 1]))
    (by rfl) (by rfl) (by rfl)

theorem readListRecord_writeList_nil (items : List (List Nat))
    (hitems : ∀ b ∈ items, b.length < 2 ^ 64)
    (hpay : (listPayload items).length < 2 ^ 64)
    (hcount : items.length < 2 ^ 64) :
    readListRecord (writeList items) = some (items, []) := by
  have h := readListRecord_writeList items [] hitems hpay hcount
  rwa [List.append_nil] at h

theorem bounds_of_lt_2_54 (n : Nat) (h : n < 2 ^ 54) :
    8 + 40 * n < 2 ^ 64 ∧ n < 2 ^ 64 := by
  have h54 : (2 : Nat) ^ 54 = 18014398509481984 := by norm_num
  have h64 : (2 : Nat) ^ 64 = 18446744073709551616 := by norm_num
  omega

theorem commitment_bytes_lt (cs : List CompressedRistretto) :
    ∀ b ∈ cs.map CompressedRistretto.toBytes, b.length < 2 ^ 64 := by
  intro b hb
  obtain ⟨c, hc, rfl⟩ := List.mem_map.mp hb
  have : (CompressedRistretto.toBytes c).length = 32 := c.2
  omega

theorem commitment_payload_lt (cs : List CompressedRistretto)
    (h : cs.length < 2 ^ 54) :
    (listPayload (cs.map CompressedRistretto.toBytes)).length < 2 ^ 64 := by
  rw [listPayload_length_of_32 _ (fun b hb => by
    obtain ⟨c, hc, rfl⟩ := List.mem_map.mp hb
    exact c.2), List.length_map]
  exact (bounds_of_lt_2_54 cs.length h).1

/-- C4: encoding a `Proof` and reading the produced stream back with the
generic TLV record reader reconstructs byte-identical proof bytes and
byte-identical commitment and toggle-commitment encodings. -/
theorem C4_roundtrip (p : Proof) (s : List Nat)
    (hs : Proof.tryInto p = .ok s)
    (hp : p.proof.length < 2 ^ 64)
    (hc : p.commitments.length < 2 ^ 54)
    (ht : p.t_c.length < 2 ^ 54) :
    readProofTriple s =
      some (p.proof, p.commitments.map CompressedRistretto.toBytes,
        p.t_c.map CompressedRistretto.toBytes) := by
  have hX : Proof.tryInto p =
      .ok ((([] ++ writeRecord p.proof) ++
        writeList (p.commitments.map CompressedRistretto.toBytes)) ++
          writeList (p.t_c.map CompressedRistretto.toBytes)) := rfl
  rw [hX] at hs
  injection hs with hs
  subst hs
  simp only [List.nil_append, List.append_assoc]
  unfold readProofTriple
  rw [readRecord_writeRecord _ _ hp]
  simp only [Option.bind_eq_bind, Option.some_bind]
  rw [readListRecord_writeList _ _ (commitment_bytes_lt _)
    (commitment_payload_lt _ hc)
    (by rw [List.length_map]; exact (bounds_of_lt_2_54 _ hc).2)]
  simp only [Option.some_bind]
  rw [readListRecord_writeList_nil _ (commitment_bytes_lt _)
    (commitment_payload_lt _ ht)
    (by rw [List.length_map]; exact (bounds_of_lt_2_54 _ ht).2)]
  rfl

theorem C4_roundtrip_witness :
    readProofTriple ((([] ++ writeRecord [1, 2, 3]) ++
        writeList ([mkCR 1 2].map CompressedRistretto.toBytes)) ++
          writeList ([mkCR 3 4, mkCR 0 0].map CompressedRistretto.toBytes)) =
      some ([1, 2, 3], [mkCR 1 2].map CompressedRistretto.toBytes,
        [mkCR 3 4, mkCR 0 0].map CompressedRistretto.toBytes) :=
  C4_roundtrip (Proof.mk [1, 2, 3] [mkCR 1 2] [mkCR 3 4, mkCR 0 0]) _
    (by rfl) (by norm_num) (by norm_num) (by norm_num)

theorem scalarFromBytes_toBytes (v : Scalar) :
    scalarFromBytes (scalarToBytes v) = some v := by
  unfold scalarFromBytes scalarToBytes
  have hl : (leBytes 32 v.val).length = 32 := length_leBytes _ _
  have hvlt : v.val < 256 ^ 32 :=
    lt_trans (ZMod.val_lt v) (by norm_num [lVal])
  have hv : leVal (leBytes 32 v.val) = v.val := leVal_leBytes _ _ hvlt
  rw [if_pos ⟨hl, by rw [hv]; exact ZMod.val_lt v⟩, hv,
    ZMod.natCast_rightInverse v]

theorem nextScalar_write (v : Scalar) (rest : List Nat) :
    nextScalar (writeRecord (scalarToBytes v) ++ rest) = .ok (v, rest) := by
  unfold nextScalar
  rw [readRecord_writeRecord _ _
    (by unfold scalarToBytes; rw [length_leBytes]; norm_num)]
  dsimp only
  rw [scalarFromBytes_toBytes]

theorem nextScalar_write_nil (v : Scalar) :
    nextScalar (writeRecord (scalarToBytes v)) = .ok (v, []) := by
  have h := nextScalar_write v []
  rwa [List.append_nil] at h

theorem nextScalar_nil : nextScalar [] = .error .unexpectedEof := rfl

theorem readListRecord_nil : readListRecord [] = none := rfl

theorem readUsizeRecord_nil : readUsizeRecord [] = .error .unexpectedEof :=
  rfl

theorem decodeScalarList_map (pl : List Scalar) :
    decodeScalarList (pl.map scalarToBytes) = .ok pl := by
  induction pl with
  | nil => rfl
  | cons v vs ih =>
    simp only [List.map_cons, decodeScalarList, scalarFromBytes_toBytes, ih]
    rfl

theorem exc_ok_bind {α β : Type} (a : α) (f : α → Except Error β) :
    (Except.ok a >>= f) = f a := rfl

theorem exc_error_bind {α β : Type} (e : Error) (f : α → Except Error β) :
    ((Except.error e : Except Error α) >>= f) = .error e := rfl

theorem readRecord_take_writeRecord (p : List Nat) (hp : p.length < 2 ^ 64)
    (n : Nat) (hn : n < (writeRecord p).length) :
    readRecord ((writeRecord p).take n) = none := by
  have hl : (leBytes 8 p.length).length = 8 := length_leBytes _ _
  unfold writeRecord at hn ⊢
  rw [List.length_append, hl] at hn
  rcases Nat.lt_or_ge n 8 with h8 | h8
  · unfold readRecord
    rw [if_neg (by simp [List.length_take, List.length_append, hl]; omega)]
  · rw [List.take_append_eq_append_take,
      List.take_of_length_le (by rw [hl]; omega), hl]
    unfold readRecord
    rw [List.take_left' hl, List.drop_left' hl,
      leVal_leBytes _ _ (by rw [pow_256_8]; exact hp)]
    rw [if_pos (by simp [hl]), if_neg (by simp [List.length_take]; omega)]

theorem nextScalar_take (v : Scalar) (n : Nat)
    (hn : n < (writeRecord (scalarToBytes v)).length) :
    nextScalar ((writeRecord (scalarToBytes v)).take n) =
      .error .unexpectedEof := by
  unfold nextScalar
  rw [readRecord_take_writeRecord _
    (by unfold scalarToBytes; rw [length_leBytes]; norm_num) _ hn]

theorem readListRecord_take (items : List (List Nat))
    (hpay : (listPayload items).length < 2 ^ 64) (n : Nat)
    (hn : n < (writeList items).length) :
    readListRecord ((writeList items).take n) = none := by
  unfold writeList at hn ⊢
  unfold readListRecord
  rw [readRecord_take_writeRecord _ hpay _ hn]
  rfl

theorem readUsizeRecord_take (t n : Nat)
    (hn : n < (writeRecord (leBytes 8 t)).length) :
    readUsizeRecord ((writeRecord (leBytes 8 t)).take n) =
      .error .unexpectedEof := by
  unfold readUsizeRecord
  rw [readRecord_take_writeRecord _ (by rw [length_leBytes]; norm_num) _ hn]

/-- C6: for every input stream truncated before all nine expected records
are present — the seven scalar records, the public-list record and the
final toggle-integer record — `try_from_reader_variables` returns the
unexpected-end-of-input error: no panic, no default toggle, no partial
result.  A truncated stream is the first `j` complete records followed by
a strict prefix (possibly empty) of record `j`. -/
theorem C6_truncation (E : ProverEngine σ Var) (rng : Nat → Scalar)
    (d k y y_inv q z_img seed : Scalar) (pub_list : List Scalar)
    (toggle : Nat) (j n : Nat) (hj : j < 9)
    (hn : n < ((encodeWitnessRecords d k y y_inv q z_img seed pub_list
      toggle).getD j []).length)
    (hN : pub_list.length < 2 ^ 54) :
    Proof.tryFromReaderVariables E rng
      (((encodeWitnessRecords d k y y_inv q z_img seed pub_list
          toggle).take j).flatten ++
        ((encodeWitnessRecords d k y y_inv q z_img seed pub_list
          toggle).getD j []).take n) = .error .unexpectedEof := by
  have hitems : ∀ b ∈ pub_list.map scalarToBytes, b.length < 2 ^ 64 := by
    intro b hb
    obtain ⟨v, hv, rfl⟩ := List.mem_map.mp hb
    unfold scalarToBytes
    rw [length_leBytes]
    norm_num
  have h32 : ∀ b ∈ pub_list.map scalarToBytes, b.length = 32 := by
    intro b hb
    obtain ⟨v, hv, rfl⟩ := List.mem_map.mp hb
    exact length_leBytes _ _
  have hpay0 : (listPayload (pub_list.map scalarToBytes)).length < 2 ^ 64 := by
    rw [listPayload_length_of_32 _ h32, List.length_map]
    exact (bounds_of_lt_2_54 _ hN).1
  have hL := readListRecord_writeList_nil (pub_list.map scalarToBytes)
    hitems hpay0
    (by rw [List.length_map]; exact (bounds_of_lt_2_54 _ hN).2)
  interval_cases j <;>
    simp [encodeWitnessRecords] at hn <;>
    simp [encodeWitnessRecords, Proof.tryFromReaderVariables,
      nextScalar_write, nextScalar_write_nil, nextScalar_nil,
      nextScalar_take, readListRecord_take, readUsizeRecord_take,
      readListRecord_nil, readUsizeRecord_nil, decodeScalarList_map,
      exc_ok_bind, exc_error_bind, hL, hpay0, hn, List.flatten_cons,
      List.flatten_nil, List.append_nil]
  · rw [readListRecord_take _ hpay0 _ hn]
  · rw [readListRecord_writeList (pub_list.map scalarToBytes) _ hitems hpay0
      (by rw [List.length_map]; exact (bounds_of_lt_2_54 _ hN).2)]
    simp [decodeScalarList_map, exc_ok_bind, exc_error_bind,
      readUsizeRecord_take toggle n hn]

theorem C6_truncation_witness :
    Proof.tryFromReaderVariables traceEngine (fun _ => (0 : Scalar))
      (((encodeWitnessRecords 0 0 0 0 0 0 0 [(0 : Scalar)] 0).take 8).flatten
        ++ ((encodeWitnessRecords 0 0 0 0 0 0 0 [(0 : Scalar)] 0).getD 8
          []).take 15) = .error .unexpectedEof :=
  C6_truncation traceEngine (fun _ => (0 : Scalar)) 0 0 0 0 0 0 0
    [(0 : Scalar)] 0 8 15 (by norm_num) (by decide) (by norm_num)

end BlindBid
